import Mathlib

/-!
Verification of the stock-analysis dashboard (src/app.py) against its
natural-language specification.  The Python program is shallowly embedded:
provider values become the inductive `FVal` (Python truthiness and the
isinstance int/float checks are modelled explicitly), price bars become
rational-valued `Bar` records, and the Streamlit request flow becomes the
pure function `runPipeline`, with the top-level catch-all exception handler
modelled by mapping the inner `Except` error into the
`Outcome.unexpectedError` message.
-/

namespace StockApp

/-- A value held in the provider info dictionary: a number, a string, or
absent (Python None / key missing — both make a dict get yield a falsy,
non-numeric value, which the code treats identically). -/
inductive FVal
  | num (q : ℚ)
  | str (s : String)
  | absent
deriving DecidableEq

/-- Python truthiness of a provider value (the test `if not sector`). -/
def FVal.truthy : FVal → Bool
  | .num q => q ≠ 0
  | .str s => s ≠ ""
  | .absent => false

/-- The fundamentals snapshot `info`, as an association list of field values
(first binding wins, mirroring a dict with unique keys). -/
def Info := List (String × FVal)

/-- The dict read `info.get(key)`: first binding for key, or absent. -/
def getF (info : Info) (key : String) : FVal :=
  (List.lookup key info).getD .absent

/-- The fixed sector-to-required-ratios table `SECTOR_RATIOS` of app.py. -/
def sectorRatiosTable : List (String × List String) :=
  [("Banks", ["priceToBook", "returnOnEquity"]),
   ("NBFCs", ["priceToBook", "trailingPE"]),
   ("IT Services", ["trailingPE", "enterpriseToEbitda"]),
   ("FMCG", ["trailingPE", "enterpriseToEbitda"]),
   ("Pharmaceuticals", ["trailingPE", "enterpriseToEbitda"]),
   ("Steel", ["enterpriseToEbitda"]),
   ("Cement", ["enterpriseToEbitda"]),
   ("Retail", ["trailingPE", "enterpriseToRevenue"])]

/-- The table lookup `SECTOR_RATIOS.get(sector, [])`: only a string key can
hit the table; any other (truthy) sector value gets the default empty
list. -/
def ratiosForVal (v : FVal) : List String :=
  match v with
  | .str s => (List.lookup s sectorRatiosTable).getD []
  | _ => []

/-- The loop guard `val and isinstance(val, (int, float)) and val > 0`: for
a number q it is q ≠ 0 ∧ q > 0, i.e. q > 0; a string is never an int/float;
an absent value is falsy. -/
def isPosNum : FVal → Bool
  | .num q => decide (0 < q)
  | _ => false

/-- One iteration of the scoring loop: bump the score when the ratio value
passes the guard, and record the value under the ratio name either way. -/
def scoreStep (info : Info) (acc : ℕ × List (String × FVal)) (r : String) :
    ℕ × List (String × FVal) :=
  let val := getF info r
  ((if isPosNum val then acc.1 + 1 else acc.1), acc.2 ++ [(r, val)])

/-- The value `check_fundamentals` returns: a 3-tuple on the no-sector early
return, a 4-tuple on the success path and on the exception path.  A Python
None sector is `FVal.absent`. -/
inductive CFResult
  | tuple3 (isStrong : Bool) (sector : FVal) (fund : List (String × FVal))
  | tuple4 (isStrong : Bool) (sector : FVal) (fund : List (String × FVal))
      (highValued : Bool)
deriving DecidableEq

/-- The function `check_fundamentals`, over the outcome of the fundamentals
fetch (`yf.Ticker(symbol).info`); a fetch exception takes the except
path. -/
def checkFundamentals (fetch : Except Unit Info) : CFResult :=
  match fetch with
  | .error _ => .tuple4 false .absent [] false
  | .ok info =>
    let sector := getF info "sector"
    if sector.truthy then
      let ratios := ratiosForVal sector
      let res := ratios.foldl (scoreStep info) (0, [])
      let highValued :=
        match getF info "trailingPE" with
        | .num q => decide (40 < q)
        | _ => false
      .tuple4 (decide (ratios.length / 2 ≤ res.1)) sector res.2 highValued
    else
      .tuple3 false .absent []

/-- First component of whichever tuple `check_fundamentals` returned. -/
def isStrongOf : CFResult → Bool
  | .tuple3 b _ _ => b
  | .tuple4 b _ _ _ => b

/-- Second component of whichever tuple `check_fundamentals` returned. -/
def sectorOf : CFResult → FVal
  | .tuple3 _ s _ => s
  | .tuple4 _ s _ _ => s

/-- The high-valuation flag, when the result carries one (only the 4-tuple
does; the no-sector 3-tuple has no fourth component). -/
def highFlagOf : CFResult → Option Bool
  | .tuple3 _ _ _ => none
  | .tuple4 _ _ _ h => some h

/-- The ratio list the screener uses for a snapshot. -/
def ratiosOf (info : Info) : List String :=
  ratiosForVal (getF info "sector")

/-- Number of required ratios that are present, numeric and strictly
positive in the snapshot. -/
def countPos (info : Info) : ℕ :=
  (ratiosOf info).countP (fun r => isPosNum (getF info r))

/-- Modelled from the spec: the strength rule as the specification words it,
with threshold `max 1 (floor (ratio_count / 2))` — to be compared with the
code threshold `score >= len(ratios) // 2`. -/
def specIsStrong (info : Info) : Bool :=
  decide (max 1 ((ratiosOf info).length / 2) ≤ countPos info)

/-- The `trailingPE > 40` test the high-valuation flag performs, as a
predicate on the stored value. -/
def isHighPE : FVal → Bool
  | .num q => decide (40 < q)
  | _ => false

/-! ### Pivot point and Fibonacci levels -/

/-- The pivot point `(high + low + last_close) / 3`. -/
def pivotOf (high low close : ℚ) : ℚ := (high + low + close) / 3

/-- The resistance level `r1 = 2 * pivot - low`. -/
def r1Of (high low close : ℚ) : ℚ := 2 * pivotOf high low close - low

/-- The support level `s1 = 2 * pivot - high`. -/
def s1Of (high low close : ℚ) : ℚ := 2 * pivotOf high low close - high

/-- A Fibonacci retracement level: `high - (high - low) * r`. -/
def fibLevel (high low r : ℚ) : ℚ := high - (high - low) * r

/-! ### RSI(14)

The pandas pipeline: `diff()` puts NaN at index 0; `where(delta > 0, 0)`
replaces both negatives and that NaN by 0, so the gain/loss series start
with a literal 0.  A 14-bar rolling mean is defined (non-NaN) from index 13
on; the elementwise quotient of the gain average by the loss average gives
+inf when the loss average is 0 and the gain average is positive (so
`100 - 100/(1+rs)` is exactly 100), and NaN when both are 0 (dropped by
`dropna`).  The reported value is the last defined entry. -/

/-- Close-to-close differences: entry i is close i minus close i-1. -/
def deltasOf (closes : List ℚ) : List ℚ :=
  List.zipWith (fun a b => a - b) closes.tail closes

/-- The per-bar gain series (leading NaN replaced by 0). -/
def gainsOf (closes : List ℚ) : List ℚ :=
  0 :: (deltasOf closes).map (fun d => max d 0)

/-- The per-bar loss series (leading NaN replaced by 0). -/
def lossesOf (closes : List ℚ) : List ℚ :=
  0 :: (deltasOf closes).map (fun d => max (-d) 0)

/-- The window of indices i-13 .. i that the rolling mean averages at
index i. -/
def window14 (xs : List ℚ) (i : ℕ) : List ℚ :=
  (xs.take (i + 1)).drop (i - 13)

/-- The 14-period rolling mean at index i. -/
def avg14 (xs : List ℚ) (i : ℕ) : ℚ := (window14 xs i).sum / 14

/-- The RSI series entry at index i: none where pandas holds NaN (i < 13, i
out of range, or a 0/0 relative strength), 100 where the loss average is 0
and the gain average positive (the float division yields +inf), and the
textbook formula otherwise. -/
def rsiAt (closes : List ℚ) (i : ℕ) : Option ℚ :=
  if i < 13 ∨ closes.length ≤ i then none
  else if avg14 (lossesOf closes) i = 0 then
    (if avg14 (gainsOf closes) i = 0 then none else some 100)
  else some (100 - 100 /
    (1 + avg14 (gainsOf closes) i / avg14 (lossesOf closes) i))

/-- The reported RSI: the last defined RSI entry, if any (the code takes
the last element after dropping NaN rows). -/
def rsiReported (closes : List ℚ) : Option ℚ :=
  ((List.range closes.length).filterMap (rsiAt closes)).getLast?

/-! ### Rounding, moving averages, trade plan -/

/-- Rounding to two decimals, modelled as round-to-nearest on rationals
(Python rounds half to even on floats; no claim depends on the tie
direction). -/
def roundTwo (q : ℚ) : ℚ := (round (q * 100) : ℤ) / 100

/-- A displayed moving-average slot: a number, or the dash marker string. -/
inductive MAVal
  | num (q : ℚ)
  | dash
deriving DecidableEq

/-- A moving-average display slot: the rounded mean of the last w closes
when the series has at least w bars, and the dash marker otherwise. -/
def maField (w : ℕ) (closes : List ℚ) : MAVal :=
  if w ≤ closes.length then
    .num (roundTwo ((closes.drop (closes.length - w)).sum / w))
  else .dash

/-- The chart guard `isinstance(ma, (int, float))`: the string marker never
passes, so the overlay is drawn exactly for numeric slots. -/
def drawOverlay : MAVal → Bool
  | .num _ => true
  | .dash => false

/-- One OHLC bar (after dropping NaN rows, all fields present). -/
structure Bar where
  opn : ℚ
  high : ℚ
  low : ℚ
  close : ℚ
deriving DecidableEq

/-- The derived numbers the strong branch computes and displays. -/
structure TradePlan where
  entryLow : ℚ
  entryHigh : ℚ
  targetLow : ℚ
  targetHigh : ℚ
  stopLoss : ℚ
  rsi : ℚ
  ma20 : MAVal
  ma50 : MAVal
  ma200 : MAVal
  pivot : ℚ
  r1 : ℚ
  s1 : ℚ
  fib : List (String × ℚ)
deriving DecidableEq

/-- Python exceptions reaching the top-level handler: the 3-into-4 unpack
(ValueError) and indexing the last element of an empty selection
(IndexError). -/
inductive PyErr
  | valueError
  | indexError
deriving DecidableEq

/-- The indicator block of the strong branch, lines 114-142 of app.py.
Taking the last element, the max or the min of an empty series raises
(modelled as an IndexError); otherwise every formula is as written in the
code. -/
def computePlan (data : List Bar) : Except PyErr TradePlan :=
  let closes := data.map Bar.close
  match closes.getLast? with
  | none => .error .indexError
  | some lastClose =>
    match (data.map Bar.high).max?, (data.map Bar.low).min? with
    | some high, some low =>
      match rsiReported closes with
      | none => .error .indexError
      | some rsiVal =>
        let pivot := (high + low + lastClose) / 3
        let r1 := 2 * pivot - low
        let s1 := 2 * pivot - high
        .ok
          { entryLow := roundTwo (pivot * (98 / 100))
            entryHigh := roundTwo (pivot * (102 / 100))
            targetLow := roundTwo r1
            targetHigh := roundTwo (r1 + (r1 - pivot))
            stopLoss := roundTwo s1
            rsi := roundTwo rsiVal
            ma20 := maField 20 closes
            ma50 := maField 50 closes
            ma200 := maField 200 closes
            pivot := pivot
            r1 := r1
            s1 := s1
            fib := [("23%", roundTwo (fibLevel high low (236 / 1000))),
                    ("38%", roundTwo (fibLevel high low (382 / 1000))),
                    ("50%", roundTwo (fibLevel high low (1 / 2))),
                    ("61%", roundTwo (fibLevel high low (618 / 1000))),
                    ("78%", roundTwo (fibLevel high low (786 / 1000)))] }
    | _, _ => .error .indexError

/-! ### The request pipeline -/

/-- The fallback table `alt_frames`: daily falls back to weekly, weekly to
monthly, monthly (and any other key) to nothing. -/
def altFrames (tf : String) : Option String :=
  if tf = "1d" then some "1wk"
  else if tf = "1wk" then some "1mo"
  else none

/-- The external inputs of one request: the resolved symbol (none when
symbol suggestion failed), the download result per interval (already
cleaned of NaN rows), and the fundamentals-fetch outcome. -/
structure Request where
  resolved : Option String
  download : String → List Bar
  fundamentals : Except Unit Info

/-- The user-visible terminal states of the body of the outer try block. -/
inductive InnerOut
  | couldNotResolve
  | dataUnavailable
  | noDataAnyTimeframe
  | notStrong
  | plan (tp : TradePlan)
deriving DecidableEq

/-- The request outcome after the top-level exception handler: either a
normal terminal state, or the Unexpected Error message box. -/
inductive Outcome
  | ok (o : InnerOut)
  | unexpectedError (e : PyErr)
deriving DecidableEq

/-- The body of the try block (lines 74-185 of app.py): resolve, download,
one optional fallback download without a fresh length check, the 4-way
unpack of `check_fundamentals` (a ValueError when the no-sector branch
returned a 3-tuple), then either the indicator block or the not-strong
message. -/
def runInner (tf0 : String) (req : Request) : Except PyErr InnerOut :=
  match req.resolved with
  | none => .ok .couldNotResolve
  | some _ =>
    let data0 := req.download tf0
    if data0.length = 0 then .ok .dataUnavailable
    else
      let retried : Option (List Bar) :=
        if data0.length < 15 then
          match altFrames tf0 with
          | some nextTf => some (req.download nextTf)
          | none => none
        else some data0
      match retried with
      | none => .ok .noDataAnyTimeframe
      | some data =>
        match checkFundamentals req.fundamentals with
        | .tuple3 _ _ _ => .error .valueError
        | .tuple4 isStrong _ _ _ =>
          if isStrong then
            match computePlan data with
            | .ok tp => .ok (.plan tp)
            | .error e => .error e
          else .ok .notStrong

/-- The whole request: the catch-all handler turns any escaped exception
into the Unexpected Error user-facing message. -/
def runPipeline (tf0 : String) (req : Request) : Outcome :=
  match runInner tf0 req with
  | .ok o => .ok o
  | .error e => .unexpectedError e

/-- Discriminator: did the request end in a full trade plan. -/
def isPlanOutcome : Outcome → Bool
  | .ok (.plan _) => true
  | _ => false

/-! ### Concrete inputs used by counterexamples and witnesses -/

/-- A series of n bars with all four prices equal to the bar index plus
one (so the close series is 1, 2, ..., n, strictly increasing). -/
def mkBars (n : ℕ) : List Bar :=
  (List.range n).map (fun i => ⟨(i + 1 : ℚ), (i + 1 : ℚ), (i + 1 : ℚ), (i + 1 : ℚ)⟩)

/-- A snapshot in the Banks sector with both required ratios positive. -/
def infoStrong : Info :=
  [("sector", FVal.str "Banks"), ("priceToBook", FVal.num 2),
   ("returnOnEquity", FVal.num (15 / 100))]

/-- A snapshot whose sector is not a key of the ratio table. -/
def infoNoTable : Info := [("sector", FVal.str "Unknown")]

/-- A snapshot with a high trailing price-earnings ratio but no sector. -/
def infoNoSectorPE : Info := [("trailingPE", FVal.num 50)]

/-- Fifteen strictly increasing closes 1, 2, ..., 15. -/
def upCloses : List ℚ := (List.range 15).map (fun i => (i + 1 : ℚ))

/-- Fifteen strictly decreasing closes 100, 99, ..., 86. -/
def downCloses : List ℚ := (List.range 15).map (fun i => (100 : ℚ) - i)

/-- A request whose fundamentals fetch fails with a gateway error. -/
def reqNotStrong : Request :=
  { resolved := some "TCS"
    download := fun _ => mkBars 20
    fundamentals := .error () }

/-- A request whose fundamentals snapshot has no sector. -/
def reqNoSector : Request :=
  { resolved := some "TCS"
    download := fun _ => mkBars 20
    fundamentals := .ok infoNoSectorPE }

/-- A request that downloads only 5 bars at every interval. -/
def req1mo : Request :=
  { resolved := some "TCS"
    download := fun _ => mkBars 5
    fundamentals := .ok infoStrong }

/-- A request that downloads 5 bars on the requested interval and 14 bars
on the weekly fallback interval. -/
def reqC4 : Request :=
  { resolved := some "TCS"
    download := fun tf => if tf = "1wk" then mkBars 14 else mkBars 5
    fundamentals := .ok infoStrong }

/-- Twenty constant closes. -/
def closes20 : List ℚ := List.replicate 20 1

/-! ### Helper lemmas: the screener score is a count -/

theorem scoreStep_foldl_fst (info : Info) (l : List String)
    (acc : ℕ × List (String × FVal)) :
    (l.foldl (scoreStep info) acc).1 =
      acc.1 + l.countP (fun r => isPosNum (getF info r)) := by
  induction l generalizing acc with
  | nil => simp
  | cons a t ih =>
    simp only [List.foldl_cons, List.countP_cons, ih, scoreStep]
    split <;> simp_all
    omega

theorem checkFundamentals_isStrong (info : Info)
    (hs : (getF info "sector").truthy = true) :
    isStrongOf (checkFundamentals (.ok info)) =
      decide ((ratiosOf info).length / 2 ≤ countPos info) := by
  simp only [checkFundamentals, hs, if_true, isStrongOf,
    scoreStep_foldl_fst, ratiosOf, countPos, Nat.zero_add]

/-! ### Helper lemmas: RSI bounds and saturation -/

theorem gainsOf_nonneg (closes : List ℚ) : ∀ x ∈ gainsOf closes, 0 ≤ x := by
  intro x hx
  simp only [gainsOf, List.mem_cons, List.mem_map] at hx
  rcases hx with rfl | ⟨d, -, rfl⟩
  · exact le_refl 0
  · exact le_max_right d 0

theorem lossesOf_nonneg (closes : List ℚ) : ∀ x ∈ lossesOf closes, 0 ≤ x := by
  intro x hx
  simp only [lossesOf, List.mem_cons, List.mem_map] at hx
  rcases hx with rfl | ⟨d, -, rfl⟩
  · exact le_refl 0
  · exact le_max_right (-d) 0

theorem avg14_nonneg (xs : List ℚ) (i : ℕ) (h : ∀ x ∈ xs, 0 ≤ x) :
    0 ≤ avg14 xs i := by
  apply div_nonneg _ (by norm_num)
  exact List.sum_nonneg fun x hx =>
    h x (List.take_subset _ _ (List.drop_subset _ _ hx))

theorem rsiAt_bounds (closes : List ℚ) (i : ℕ) (v : ℚ)
    (h : rsiAt closes i = some v) : 0 ≤ v ∧ v ≤ 100 := by
  have hg : 0 ≤ avg14 (gainsOf closes) i :=
    avg14_nonneg _ _ (gainsOf_nonneg closes)
  have hl : 0 ≤ avg14 (lossesOf closes) i :=
    avg14_nonneg _ _ (lossesOf_nonneg closes)
  unfold rsiAt at h
  split at h
  · exact absurd h (by simp)
  · split at h
    · split at h
      · exact absurd h (by simp)
      · injection h with h
        subst h
        norm_num
    · injection h with h
      subst h
      rename_i hl0
      have hlpos : 0 < avg14 (lossesOf closes) i :=
        lt_of_le_of_ne hl (Ne.symm hl0)
      have ht : 0 ≤ avg14 (gainsOf closes) i / avg14 (lossesOf closes) i :=
        div_nonneg hg hl
      constructor
      · have h2 : (100 : ℚ) /
            (1 + avg14 (gainsOf closes) i / avg14 (lossesOf closes) i) ≤ 100 :=
          div_le_self (by norm_num) (by linarith)
        linarith
      · have h2 : (0 : ℚ) ≤ 100 /
            (1 + avg14 (gainsOf closes) i / avg14 (lossesOf closes) i) := by
          positivity
        linarith

theorem deltasOf_length (closes : List ℚ) :
    (deltasOf closes).length = closes.length - 1 := by
  simp [deltasOf]

theorem gainsOf_length (closes : List ℚ) (h : closes ≠ []) :
    (gainsOf closes).length = closes.length := by
  have : closes.length ≠ 0 := fun h0 => h (List.length_eq_zero.mp h0)
  simp [gainsOf, deltasOf_length]
  omega

theorem lossesOf_length (closes : List ℚ) (h : closes ≠ []) :
    (lossesOf closes).length = closes.length := by
  have : closes.length ≠ 0 := fun h0 => h (List.length_eq_zero.mp h0)
  simp [lossesOf, deltasOf_length]
  omega

theorem window14_last (xs : List ℚ) (n : ℕ) (hlen : xs.length = n)
    (hn : 15 ≤ n) : window14 xs (n - 1) = xs.drop (n - 14) := by
  unfold window14
  have h1 : n - 1 + 1 = n := by omega
  have h2 : n - 1 - 13 = n - 14 := by omega
  rw [h1, h2, ← hlen, List.take_length]

theorem gains_window_last (closes : List ℚ) (hn : 15 ≤ closes.length) :
    window14 (gainsOf closes) (closes.length - 1) =
      ((deltasOf closes).map (fun d => max d 0)).drop (closes.length - 15) := by
  have hne : closes ≠ [] := by
    intro h; rw [h] at hn; simp at hn
  rw [window14_last _ closes.length (gainsOf_length closes hne) hn]
  show (gainsOf closes).drop (closes.length - 14) = _
  have h14 : closes.length - 14 = (closes.length - 15) + 1 := by omega
  rw [gainsOf, h14, List.drop_succ_cons]

theorem losses_window_last (closes : List ℚ) (hn : 15 ≤ closes.length) :
    window14 (lossesOf closes) (closes.length - 1) =
      ((deltasOf closes).map (fun d => max (-d) 0)).drop (closes.length - 15) := by
  have hne : closes ≠ [] := by
    intro h; rw [h] at hn; simp at hn
  rw [window14_last _ closes.length (lossesOf_length closes hne) hn]
  show (lossesOf closes).drop (closes.length - 14) = _
  have h14 : closes.length - 14 = (closes.length - 15) + 1 := by omega
  rw [lossesOf, h14, List.drop_succ_cons]

theorem rsiAt_last_all_gains (closes : List ℚ) (hn : 15 ≤ closes.length)
    (hd : ∀ d ∈ deltasOf closes, 0 < d) :
    rsiAt closes (closes.length - 1) = some 100 := by
  have hlz : avg14 (lossesOf closes) (closes.length - 1) = 0 := by
    unfold avg14
    rw [losses_window_last closes hn]
    rw [List.sum_eq_zero, zero_div]
    intro x hx
    obtain ⟨d, hdm, rfl⟩ := List.mem_map.mp (List.drop_subset _ _ hx)
    have := hd d hdm
    simp [max_eq_right]
    linarith
  have hgz : 0 < avg14 (gainsOf closes) (closes.length - 1) := by
    unfold avg14
    rw [gains_window_last closes hn]
    apply div_pos _ (by norm_num)
    apply List.sum_pos
    · intro x hx
      obtain ⟨d, hdm, rfl⟩ := List.mem_map.mp (List.drop_subset _ _ hx)
      have := hd d hdm
      simp only [lt_max_iff]
      left; exact this
    · have hlen : (((deltasOf closes).map (fun d => max d 0)).drop
          (closes.length - 15)).length = 14 := by
        simp [List.length_drop, deltasOf_length]
        omega
      intro hnil
      rw [hnil] at hlen
      simp at hlen
  unfold rsiAt
  rw [if_neg (by omega), if_pos hlz, if_neg (ne_of_gt hgz)]

theorem rsiAt_last_all_losses (closes : List ℚ) (hn : 15 ≤ closes.length)
    (hd : ∀ d ∈ deltasOf closes, d < 0) :
    rsiAt closes (closes.length - 1) = some 0 := by
  have hgz : avg14 (gainsOf closes) (closes.length - 1) = 0 := by
    unfold avg14
    rw [gains_window_last closes hn]
    rw [List.sum_eq_zero, zero_div]
    intro x hx
    obtain ⟨d, hdm, rfl⟩ := List.mem_map.mp (List.drop_subset _ _ hx)
    have := hd d hdm
    simp [max_eq_right]
    linarith
  have hlz : 0 < avg14 (lossesOf closes) (closes.length - 1) := by
    unfold avg14
    rw [losses_window_last closes hn]
    apply div_pos _ (by norm_num)
    apply List.sum_pos
    · intro x hx
      obtain ⟨d, hdm, rfl⟩ := List.mem_map.mp (List.drop_subset _ _ hx)
      have := hd d hdm
      simp only [lt_max_iff]
      left; linarith
    · have hlen : (((deltasOf closes).map (fun d => max (-d) 0)).drop
          (closes.length - 15)).length = 14 := by
        simp [List.length_drop, deltasOf_length]
        omega
      intro hnil
      rw [hnil] at hlen
      simp at hlen
  unfold rsiAt
  rw [if_neg (by omega), if_neg (ne_of_gt hlz)]
  rw [hgz, zero_div, add_zero, div_one]
  norm_num

theorem rsiReported_of_last (closes : List ℚ) (v : ℚ)
    (hn : closes.length ≠ 0)
    (h : rsiAt closes (closes.length - 1) = some v) :
    rsiReported closes = some v := by
  unfold rsiReported
  obtain ⟨m, hm⟩ : ∃ m, closes.length = m + 1 := ⟨closes.length - 1, by omega⟩
  rw [hm, List.range_succ, List.filterMap_append]
  have hone : List.filterMap (rsiAt closes) [m] = [v] := by
    have : rsiAt closes m = some v := by rw [← h, hm, Nat.add_sub_cancel]
    simp [List.filterMap, this]
  rw [hone, List.getLast?_concat]

/-! ### The claims -/

/-- C1, counterexample: for the snapshot whose sector ("Unknown") is not in
the ratio table, the ratio list is empty and the positive count is 0, yet
the code returns isStrong = true (threshold 0 ≥ 0), while the claimed rule
with threshold max 1 (floor (count/2)) = 1 says false. -/
theorem C1_counterexample :
    isStrongOf (checkFundamentals (.ok infoNoTable)) = true ∧
    ratiosOf infoNoTable = [] ∧ countPos infoNoTable = 0 ∧
    specIsStrong infoNoTable = false := by with_unfolding_all decide

/-- C1, amended: for every snapshot with a truthy sector, the screener
counts the required ratios that are present, numeric and strictly positive,
and isStrong holds iff that count ≥ floor (ratio_count / 2) — with no lower
bound of 1; in particular a sector with an empty ratio list has threshold 0
and isStrong is true. -/
theorem C1_amended :
    ∀ info : Info, (getF info "sector").truthy = true →
      (isStrongOf (checkFundamentals (.ok info)) = true ↔
        (ratiosOf info).length / 2 ≤ countPos info) ∧
      (ratiosOf info = [] → isStrongOf (checkFundamentals (.ok info)) = true) := by
  intro info hs
  rw [checkFundamentals_isStrong info hs]
  constructor
  · exact decide_eq_true_iff
  · intro h0
    simp [countPos, h0]

/-- C1, witness: the amended theorem applied to the concrete Banks
snapshot. -/
theorem C1_witness :
    (getF infoStrong "sector").truthy = true ∧
    (isStrongOf (checkFundamentals (.ok infoStrong)) = true ↔
      (ratiosOf infoStrong).length / 2 ≤ countPos infoStrong) :=
  ⟨by with_unfolding_all decide,
   (C1_amended infoStrong (by with_unfolding_all decide)).1⟩

/-- C2, counterexample: with a gateway error during the fundamentals fetch
and 20 bars of data, the screener degrades to a 4-tuple with isStrong false
and sector None, but the pipeline ends in the not-strong message and no
trade plan — the technical-indicator computation does not proceed. -/
theorem C2_counterexample :
    checkFundamentals (.error ()) = .tuple4 false .absent [] false ∧
    (reqNotStrong.download "1d").length = 20 ∧
    runPipeline "1d" reqNotStrong = .ok .notStrong ∧
    isPlanOutcome (runPipeline "1d" reqNotStrong) = false := by
  with_unfolding_all decide

/-- C2, amended: a failing fundamentals fetch degrades to isStrong = false
and sector = None, and whenever the screener returns a 4-tuple with
isStrong = false the pipeline (given resolvable symbol and enough data)
terminates in the not-strong message, without an unhandled fault and
without performing any technical-indicator computation. -/
theorem C2_amended :
    (∀ e : Unit, checkFundamentals (.error e) = .tuple4 false .absent [] false) ∧
    (∀ (tf sym : String) (req : Request) (s : FVal)
        (f : List (String × FVal)) (hv : Bool),
      req.resolved = some sym →
      15 ≤ (req.download tf).length →
      checkFundamentals req.fundamentals = .tuple4 false s f hv →
      runPipeline tf req = .ok .notStrong) := by
  constructor
  · intro e; rfl
  · intro tf sym req s f hv hres hlen hcf
    unfold runPipeline runInner
    rw [hres]
    have h0 : ¬((req.download tf).length = 0) := by omega
    have h1 : ¬((req.download tf).length < 15) := by omega
    simp only [if_neg h0, if_neg h1, hcf]
    simp

/-- C2, witness: the amended theorem applied to the request whose
fundamentals fetch errors out. -/
theorem C2_witness :
    runPipeline "1wk" reqNotStrong = Outcome.ok InnerOut.notStrong :=
  C2_amended.2 "1wk" "TCS" reqNotStrong .absent [] false rfl
    (by with_unfolding_all decide) (by with_unfolding_all decide)

/-- C3, counterexample: at high = 2, low = 0, close = 2 the pivot is 4/3,
r1 - pivot is 4/3 but pivot - s1 is 2/3, so the claimed symmetry identity
fails. -/
theorem C3_counterexample :
    ¬(r1Of 2 0 2 - pivotOf 2 0 2 = pivotOf 2 0 2 - s1Of 2 0 2) := by
  unfold r1Of s1Of pivotOf
  norm_num

/-- C3, amended: the true reflection identities are r1 - pivot =
pivot - low and pivot - s1 = high - pivot; the claimed identity
r1 - pivot = pivot - s1 holds exactly when high + low = 2 * close. -/
theorem C3_amended (h l c : ℚ) :
    r1Of h l c - pivotOf h l c = pivotOf h l c - l ∧
    pivotOf h l c - s1Of h l c = h - pivotOf h l c ∧
    (r1Of h l c - pivotOf h l c = pivotOf h l c - s1Of h l c ↔ h + l = 2 * c) := by
  unfold r1Of s1Of pivotOf
  refine ⟨by ring, by ring, ?_⟩
  constructor <;> intro he <;> linarith

/-- C4: the request fetches 5 bars on the daily interval, falls back to
weekly and gets 14 bars — fewer than the required 15 — yet the pipeline
produces a full trade plan, because the code never re-checks the 15-bar
minimum after the fallback download. -/
theorem C4_code_bug :
    (reqC4.download "1d").length = 5 ∧
    (reqC4.download "1wk").length = 14 ∧
    isPlanOutcome (runPipeline "1d" reqC4) = true := by
  with_unfolding_all decide

/-- C5: the fallback table maps daily to weekly, weekly to monthly and
monthly to nothing; a monthly request with a nonempty series shorter than
15 bars terminates with the no-data message (InsufficientData) instead of
retrying; and the outcome of a request depends only on the downloads at
the requested interval and its single defined fallback, so at most one
retry ever happens. -/
theorem C5_fallback_policy :
    altFrames "1d" = some "1wk" ∧ altFrames "1wk" = some "1mo" ∧
    altFrames "1mo" = none ∧
    (∀ (req : Request) (sym : String), req.resolved = some sym →
      (req.download "1mo").length ≠ 0 → (req.download "1mo").length < 15 →
      runPipeline "1mo" req = .ok .noDataAnyTimeframe) ∧
    (∀ (a b : Request) (tf : String), a.resolved = b.resolved →
      a.fundamentals = b.fundamentals → a.download tf = b.download tf →
      (∀ t : String, altFrames tf = some t → a.download t = b.download t) →
      runPipeline tf a = runPipeline tf b) := by
  refine ⟨rfl, rfl, rfl, ?_, ?_⟩
  · intro req sym hres h0 h15
    unfold runPipeline runInner
    rw [hres]
    simp only [if_neg h0, if_pos h15]
    rfl
  · intro a b tf h1 h2 h3 h4
    unfold runPipeline runInner
    rw [h1, h2, h3]
    cases hb : b.resolved with
    | none => rfl
    | some s =>
      rcases halt : altFrames tf with - | t
      · simp only [halt]
      · simp only [halt, h4 t halt]

/-- C5, witness: a monthly request with 5 bars terminates with the
no-data message. -/
theorem C5_witness :
    runPipeline "1mo" req1mo = Outcome.ok InnerOut.noDataAnyTimeframe :=
  C5_fallback_policy.2.2.2.1 req1mo "TCS" rfl
    (by with_unfolding_all decide) (by with_unfolding_all decide)

/-- C6: a snapshot without a truthy sector makes the screener return the
3-tuple (false, None, empty dict); the 4-way unpack at the call site then
raises a ValueError, which the pipeline boundary recovers into the
user-facing Unexpected Error message rather than letting it escape. -/
theorem C6_no_sector_recovered :
    ∀ info : Info, (getF info "sector").truthy = false →
      checkFundamentals (.ok info) = .tuple3 false .absent [] ∧
      ∀ (tf sym : String) (req : Request),
        req.resolved = some sym → req.fundamentals = .ok info →
        15 ≤ (req.download tf).length →
        runInner tf req = .error .valueError ∧
        runPipeline tf req = .unexpectedError .valueError := by
  intro info hs
  have hcf : checkFundamentals (.ok info) = .tuple3 false .absent [] := by
    simp [checkFundamentals, hs]
  refine ⟨hcf, ?_⟩
  intro tf sym req hres hfund hlen
  have hinner : runInner tf req = .error .valueError := by
    unfold runInner
    rw [hres, hfund, hcf]
    have h0 : ¬((req.download tf).length = 0) := by omega
    have h1 : ¬((req.download tf).length < 15) := by omega
    simp only [if_neg h0, if_neg h1]
  exact ⟨hinner, by unfold runPipeline; rw [hinner]⟩

/-- C6, witness: the theorem applied to the sectorless snapshot and a
concrete 20-bar request. -/
theorem C6_witness :
    (getF infoNoSectorPE "sector").truthy = false ∧
    runPipeline "1d" reqNoSector = Outcome.unexpectedError PyErr.valueError :=
  ⟨by with_unfolding_all decide,
   ((C6_no_sector_recovered infoNoSectorPE (by with_unfolding_all decide)).2
     "1d" "TCS" reqNoSector rfl rfl (by with_unfolding_all decide)).2⟩

/-- C7: every reported RSI value lies in [0, 100]; a series whose deltas
are all positive (all gains, loss average 0) reports RSI = 100 rather than
a division fault, and a series whose deltas are all negative reports
RSI = 0. -/
theorem C7_rsi_bounded :
    (∀ (closes : List ℚ) (v : ℚ), rsiReported closes = some v →
      0 ≤ v ∧ v ≤ 100) ∧
    (∀ closes : List ℚ, 15 ≤ closes.length →
      (∀ d ∈ deltasOf closes, 0 < d) → rsiReported closes = some 100) ∧
    (∀ closes : List ℚ, 15 ≤ closes.length →
      (∀ d ∈ deltasOf closes, d < 0) → rsiReported closes = some 0) := by
  refine ⟨?_, ?_, ?_⟩
  · intro closes v h
    have hv : v ∈ (List.range closes.length).filterMap (rsiAt closes) :=
      List.mem_of_getLast?_eq_some h
    obtain ⟨i, -, hi⟩ := List.mem_filterMap.mp hv
    exact rsiAt_bounds closes i v hi
  · intro closes hn hd
    exact rsiReported_of_last closes 100 (by omega)
      (rsiAt_last_all_gains closes hn hd)
  · intro closes hn hd
    exact rsiReported_of_last closes 0 (by omega)
      (rsiAt_last_all_losses closes hn hd)

/-- C7, witness: the strictly increasing 15-bar series reports RSI = 100,
the strictly decreasing one reports RSI = 0, and the bound theorem applies
to the former. -/
theorem C7_witness :
    ((0 : ℚ) ≤ 100 ∧ (100 : ℚ) ≤ 100) ∧
    rsiReported upCloses = some 100 ∧ rsiReported downCloses = some 0 := by
  have h100 : rsiReported upCloses = some 100 :=
    C7_rsi_bounded.2.1 upCloses (by with_unfolding_all decide)
      (by with_unfolding_all decide)
  have h0 : rsiReported downCloses = some 0 :=
    C7_rsi_bounded.2.2 downCloses (by with_unfolding_all decide)
      (by with_unfolding_all decide)
  exact ⟨C7_rsi_bounded.1 upCloses 100 h100, h100, h0⟩

/-- C8: for high > low the five Fibonacci retracement levels are strictly
decreasing in the ratio, and each lies within [low, high]. -/
theorem C8_fib_levels (high low : ℚ) (h : low < high) :
    fibLevel high low (382 / 1000) < fibLevel high low (236 / 1000) ∧
    fibLevel high low (1 / 2) < fibLevel high low (382 / 1000) ∧
    fibLevel high low (618 / 1000) < fibLevel high low (1 / 2) ∧
    fibLevel high low (786 / 1000) < fibLevel high low (618 / 1000) ∧
    (low ≤ fibLevel high low (236 / 1000) ∧ fibLevel high low (236 / 1000) ≤ high) ∧
    (low ≤ fibLevel high low (382 / 1000) ∧ fibLevel high low (382 / 1000) ≤ high) ∧
    (low ≤ fibLevel high low (1 / 2) ∧ fibLevel high low (1 / 2) ≤ high) ∧
    (low ≤ fibLevel high low (618 / 1000) ∧ fibLevel high low (618 / 1000) ≤ high) ∧
    (low ≤ fibLevel high low (786 / 1000) ∧ fibLevel high low (786 / 1000) ≤ high) := by
  unfold fibLevel
  refine ⟨by nlinarith, by nlinarith, by nlinarith, by nlinarith,
    ⟨by nlinarith, by nlinarith⟩, ⟨by nlinarith, by nlinarith⟩,
    ⟨by nlinarith, by nlinarith⟩, ⟨by nlinarith, by nlinarith⟩,
    ⟨by nlinarith, by nlinarith⟩⟩

/-- C8, witness: the theorem applied at high = 10, low = 0. -/
theorem C8_witness :
    (0 : ℚ) < 10 ∧
    fibLevel 10 0 (382 / 1000) < fibLevel 10 0 (236 / 1000) :=
  ⟨by norm_num, (C8_fib_levels 10 0 (by norm_num)).1⟩

/-- C9: a moving-average slot at window w is the dash marker exactly when
the series is shorter than w bars, the chart overlay is drawn exactly when
it is numeric, a numeric slot implies enough bars, the marker is distinct
from every number (in particular from zero), and the trade plan fields
ma20/ma50/ma200 are exactly these slots at windows 20, 50, 200. -/
theorem C9_ma_availability :
    (∀ (w : ℕ) (closes : List ℚ), maField w closes = MAVal.dash ↔
      closes.length < w) ∧
    (∀ (w : ℕ) (closes : List ℚ), drawOverlay (maField w closes) = true ↔
      w ≤ closes.length) ∧
    (∀ (w : ℕ) (closes : List ℚ) (q : ℚ), maField w closes = MAVal.num q →
      w ≤ closes.length) ∧
    (∀ q : ℚ, MAVal.num q ≠ MAVal.dash) ∧
    (∀ (data : List Bar) (tp : TradePlan), computePlan data = .ok tp →
      tp.ma20 = maField 20 (data.map Bar.close) ∧
      tp.ma50 = maField 50 (data.map Bar.close) ∧
      tp.ma200 = maField 200 (data.map Bar.close)) := by
  refine ⟨?_, ?_, ?_, ?_, ?_⟩
  · intro w closes
    unfold maField
    split <;> simp <;> omega
  · intro w closes
    unfold maField
    split <;> simp [drawOverlay] <;> omega
  · intro w closes q h
    unfold maField at h
    split at h
    · assumption
    · exact absurd h (by simp)
  · intro q h
    exact MAVal.noConfusion h
  · intro data tp h
    simp only [computePlan] at h
    split at h
    · exact absurd h (by simp)
    · split at h
      · split at h
        · exact absurd h (by simp)
        · injection h with h
          subst h
          exact ⟨rfl, rfl, rfl⟩
      · exact absurd h (by simp)

/-- C9, witness: the theorem applied at window 20 to a 20-bar constant
series whose moving-average slot is the number 1. -/
theorem C9_witness :
    (20 ≤ closes20.length) ∧
    (drawOverlay (maField 20 closes20) = true ↔ 20 ≤ closes20.length) :=
  ⟨C9_ma_availability.2.2.1 20 closes20 1 (by with_unfolding_all decide),
   C9_ma_availability.2.1 20 closes20⟩

/-- C10, counterexample: a record with numeric trailingPE = 50 (> 40) but
no sector gets the 3-tuple return, which carries no high-valuation flag at
all — the claim that the returned flag is then true fails. -/
theorem C10_counterexample :
    isHighPE (getF infoNoSectorPE "trailingPE") = true ∧
    highFlagOf (checkFundamentals (.ok infoNoSectorPE)) = none := by
  with_unfolding_all decide

/-- C10, amended: for every record with a truthy sector, the returned
high-valuation flag is true exactly when the record holds a numeric
trailingPE strictly greater than 40 (false when absent or non-numeric),
and two such records with the same trailingPE value get the same flag
regardless of their sectors and strength scores. -/
theorem C10_amended :
    (∀ info : Info, (getF info "sector").truthy = true →
      highFlagOf (checkFundamentals (.ok info)) =
        some (isHighPE (getF info "trailingPE"))) ∧
    (∀ info1 info2 : Info, (getF info1 "sector").truthy = true →
      (getF info2 "sector").truthy = true →
      getF info1 "trailingPE" = getF info2 "trailingPE" →
      highFlagOf (checkFundamentals (.ok info1)) =
        highFlagOf (checkFundamentals (.ok info2))) := by
  have h1 : ∀ info : Info, (getF info "sector").truthy = true →
      highFlagOf (checkFundamentals (.ok info)) =
        some (isHighPE (getF info "trailingPE")) := by
    intro info hs
    simp only [checkFundamentals, hs, if_true, highFlagOf]
    cases hval : getF info "trailingPE" <;> simp [isHighPE, hval]
  refine ⟨h1, ?_⟩
  intro info1 info2 hs1 hs2 hpe
  rw [h1 info1 hs1, h1 info2 hs2, hpe]

/-- C10, witness: the amended theorem applied to the Banks snapshot, whose
trailingPE is absent, so the flag is false. -/
theorem C10_witness :
    (getF infoStrong "sector").truthy = true ∧
    highFlagOf (checkFundamentals (.ok infoStrong)) =
      some (isHighPE (getF infoStrong "trailingPE")) :=
  ⟨by with_unfolding_all decide,
   C10_amended.1 infoStrong (by with_unfolding_all decide)⟩

end StockApp
